import Mathlib

/-!
# helmboot: configuration resolution, boot-secret verification and job supervision

A shallow embedding of `pkg/cmd/run/run.go` and of the request-building part of
`pkg/envfactory/env_factory.go`.

Go functions that talk to the cluster, to git, to helm or to the version stream are
collaborators: their answers are fields of a `World`, and every function of the
embedding returns, next to its Go results, the list of collaborator calls it made
(its trace), in program order.  A Go result pair `(value, error)` is a Lean pair whose
error component is `none` for a nil error; a Go pointer result is an `Option`.
Go strings are Lean strings; the byte `s[0]` of a Go string is the first character
of the Lean string, and `strings.Count(s, "/")` is the number of its `/` characters.
A collaborator answers the same call in the same way each time it is asked, except for
the control plane during supervision, whose answers come round by round.  Log output is
not part of the embedding.
-/

namespace Helmboot

/-! ## Errors -/

/-- Go error values, by the way `run.go` builds them. -/
inductive Err where
  /-- an error handed back by a collaborator; `notFound` is what
  `apierrors.IsNotFound` answers for it -/
  | external (msg : String) (notFound : Bool)
  /-- the value of `fmt.Errorf` or `errors.Errorf`, with its formatted message -/
  | errorf (msg : String)
  /-- the value of `errors.Wrap` or `errors.Wrapf` around a cause -/
  | wrap (cause : Err) (msg : String)
  /-- the value of `util.MissingOption name` -/
  | missingOption (name : String)
  deriving DecidableEq, Repr

/-- Model of `apierrors.IsNotFound`: only a collaborator error can carry the reason. -/
def IsNotFound : Err → Bool
  | .external _ nf => nf
  | _ => false

/-! ## Data model (the fields the two source files read) -/

/-- Fields of `config.ClusterConfig` read by the sources. -/
structure ClusterConfig where
  ClusterName : String
  Namespace : String
  GitServer : String
  GitKind : String
  EnvironmentGitOwner : String
  deriving DecidableEq, Repr

/-- Fields of `config.VersionStreamConfig` read by the sources. -/
structure VersionStreamConfig where
  URL : String
  Ref : String
  deriving DecidableEq, Repr

/-- Fields of `config.EnvironmentConfig` read by the sources. -/
structure EnvironmentConfig where
  Key : String
  Owner : String
  Repository : String
  deriving DecidableEq, Repr

/-- Fields of `config.RequirementsConfig` read by the sources. -/
structure RequirementsConfig where
  Cluster : ClusterConfig
  VersionStream : VersionStreamConfig
  Environments : List EnvironmentConfig
  deriving DecidableEq, Repr

/-- The dev `Environment` record of the cluster: `Spec.Source.URL` and the team settings
(kept as the serialized boot requirements they embed). -/
structure Environment where
  SourceURL : String
  TeamSettings : String
  deriving DecidableEq, Repr

/-- A Kubernetes secret: `Data` is a Go map from key to bytes, `none` when the map is nil.
The map is an association list, the first binding of a key being its value. -/
structure Secret where
  Data : Option (List (String × List Nat))
  deriving DecidableEq, Repr

/-- The pod object handed back by `podInterface.Get`. -/
structure Pod where
  Name : String
  Phase : String
  deriving DecidableEq, Repr

/-- A `util.Command`. -/
structure Command where
  Name : String
  Args : List String
  deriving DecidableEq, Repr

/-- The options of the `run` command that the embedded functions read. -/
structure RunOptions where
  Dir : String
  GitURL : String
  ChartName : String
  BatchMode : Bool
  deriving DecidableEq, Repr

/-- What the control plane answers during one iteration of the supervision loop:
`WaitForReadyPodForSelectorLabels`, `TailLogs` and `podInterface.Get`, in that order.
An answer the iteration does not ask for is ignored. -/
structure PodRound where
  wait : String × Option Err
  tail : Option Err
  get : Pod × Option Err
  deriving DecidableEq, Repr

/-- The collaborators of `run.go` and the repository constants that are not part of the
two source files.  Each field is the answer of the Go function of the same name. -/
structure World where
  /-- Answer of `o.JXFactory.CreateJXClient()`: namespace and error -/
  CreateJXClient : String × Option Err
  /-- Answer of `kube.GetDevEnvironment(jxClient, ns)` -/
  GetDevEnvironment : String → Option Environment × Option Err
  /-- Answer of `config.GetRequirementsConfigFromTeamSettings` -/
  GetRequirementsConfigFromTeamSettings : String → Option RequirementsConfig × Option Err
  /-- Answer of `reqhelpers.GetRequirementsFromGit(gitURL)` -/
  GetRequirementsFromGit : String → Option RequirementsConfig × Option Err
  /-- Answer of `config.LoadRequirementsConfig(dir)`: document, file name, error -/
  LoadRequirementsConfig : String → Option RequirementsConfig × String × Option Err
  /-- Answer of `Gitter.FindGitConfigDir(dir)`: root dir, git config dir, error -/
  FindGitConfigDir : String → String × String × Option Err
  /-- Answer of `Gitter.DiscoverUpstreamGitURL(gitConfDir)` -/
  DiscoverUpstreamGitURL : String → String × Option Err
  /-- Answer of `o.JXFactory.CreateKubeClient()`: namespace and error -/
  CreateKubeClient : String × Option Err
  /-- Answer of `kubeClient.CoreV1().Secrets(ns).Get(name, ...)` -/
  GetSecret : String → String → Option Secret × Option Err
  /-- Answer of `util.Command.RunWithoutRetry`: the error of running a command -/
  RunWithoutRetry : Command → Option Err
  /-- Answer of `helmer.AddHelmRepoIfMissing(h, LabsChartRepository, "jx-labs", "", "")` -/
  AddHelmRepoIfMissing : Option Err
  /-- Answer of `h.UpdateRepo()` -/
  UpdateRepo : Option Err
  /-- Answer of `co.GetVersionNumber(versionstream.KindChart, name, url, ref)` -/
  GetVersionNumber : String → String → String → String × Option Err
  /-- Answer of `reqhelpers.GetBootJobCommand(requirements, gitURL, chartName, version)` -/
  GetBootJobCommand : RequirementsConfig → String → String → String → Command
  /-- Answer of `kube.IsPodCompleted` -/
  IsPodCompleted : Pod → Bool
  /-- the constant `secretmgr.LocalSecret` -/
  LocalSecret : String
  /-- the answers of the control plane to the successive iterations of `tailJobLogs` -/
  rounds : List PodRound

/-- Collaborator calls, as recorded in a trace. -/
inductive Event where
  | createJXClient
  | getDevEnvironment (ns : String)
  | getRequirementsConfigFromTeamSettings
  | getRequirementsFromGit (gitURL : String)
  | loadRequirementsConfig (dir : String)
  | findGitConfigDir (dir : String)
  | discoverUpstreamGitURL (gitConfDir : String)
  | createKubeClient
  | getSecret (ns name : String)
  /-- Call of `RunWithoutRetry` on a command -/
  | runCommand (c : Command)
  | addHelmRepoIfMissing
  | updateRepo
  | getVersionNumber (name url ref : String)
  /-- the installer-job command is built from these git URL, chart name and version -/
  | getBootJobCommand (gitURL chartName version : String)
  | waitForReadyPodForSelectorLabels (ns : String) (selector : List (String × String))
  | tailLogs (ns pod container : String)
  /-- Call of `podInterface.Get` in namespace `ns`; `fetched` is the returned pod object when the
  call had no error -/
  | getPod (ns pod : String) (fetched : Option Pod)
  deriving DecidableEq, Repr

/-! ## `run.go`: the configuration resolver -/

/-- Embeds `RunOptions.findGitURLFromDir` (run.go 267-278): trace, git URL and error. -/
def findGitURLFromDir (w : World) (o : RunOptions) : List Event × String × Option Err :=
  let dir := o.Dir
  match w.FindGitConfigDir dir with
  | (_, _, some err) =>
    ([.findGitConfigDir dir], "",
      some (.wrap err ("there was a problem obtaining the git config dir of directory " ++ dir)))
  | (_, gitConfDir, none) =>
    if gitConfDir = "" then
      ([.findGitConfigDir dir], "",
        some (.errorf ("no .git directory could be found from dir " ++ dir)))
    else
      ([.findGitConfigDir dir, .discoverUpstreamGitURL gitConfDir],
        w.DiscoverUpstreamGitURL gitConfDir)

/-- Lines 257-264 of `findRequirementsAndGitURL`: local git remote discovery, entered
with the values of `requirements` and `gitURL` reached so far. -/
def resolveRemote (w : World) (o : RunOptions) (tr : List Event)
    (requirements : Option RequirementsConfig) (gitURL : String) :
    List Event × Option RequirementsConfig × String × Option Err :=
  if gitURL = "" then
    match findGitURLFromDir w o with
    | (t, u, some err) =>
      (tr ++ t, requirements, u, some (.wrap err
        "your cluster has not been booted before and you are not inside a git clone of your dev environment repository so you need to pass in the URL of the git repository as --git-url"))
    | (t, u, none) => (tr ++ t, requirements, u, none)
  else (tr, requirements, gitURL, none)

/-- Lines 250-255 of `findRequirementsAndGitURL`: the local requirements file, followed
by `resolveRemote`. -/
def resolveLocal (w : World) (o : RunOptions) (tr : List Event)
    (requirements : Option RequirementsConfig) (gitURL : String) :
    List Event × Option RequirementsConfig × String × Option Err :=
  match requirements with
  | none =>
    match w.LoadRequirementsConfig o.Dir with
    | (r, _, some err) => (tr ++ [.loadRequirementsConfig o.Dir], r, gitURL, some err)
    | (r, _, none) => resolveRemote w o (tr ++ [.loadRequirementsConfig o.Dir]) r gitURL
  | some r => resolveRemote w o tr (some r) gitURL

/-- Lines 240-248 of `findRequirementsAndGitURL`: the explicit override, entered with the
values of `requirements` and `gitURL` taken from the cluster. -/
def resolveOverride (w : World) (o : RunOptions) (tr : List Event)
    (requirements : Option RequirementsConfig) (gitURL : String) :
    List Event × Option RequirementsConfig × String × Option Err :=
  if o.GitURL ≠ "" then
    match requirements with
    | none =>
      match w.GetRequirementsFromGit o.GitURL with
      | (r, some err) =>
        (tr ++ [.getRequirementsFromGit o.GitURL], r, o.GitURL,
          some (.wrap err ("failed to get requirements from git URL " ++ o.GitURL)))
      | (r, none) => resolveLocal w o (tr ++ [.getRequirementsFromGit o.GitURL]) r o.GitURL
    | some r => resolveLocal w o tr (some r) o.GitURL
  else resolveLocal w o tr requirements gitURL

/-- Lines 225-239 of `findRequirementsAndGitURL`: the dev-environment record of the
cluster.  Either the function returns early with an error, or it goes on with these values
of `requirements` and `gitURL`. -/
def resolveCluster (w : World) :
    Except (List Event × Err) (List Event × Option RequirementsConfig × String) :=
  match w.CreateJXClient with
  | (_, some err) => .error ([.createJXClient], err)
  | (ns, none) =>
    match w.GetDevEnvironment ns with
    | (devEnv, some err) =>
      if !IsNotFound err then .error ([.createJXClient, .getDevEnvironment ns], err)
      else
        match devEnv with
        | some devEnv =>
          .ok ([.createJXClient, .getDevEnvironment ns, .getRequirementsConfigFromTeamSettings],
            (w.GetRequirementsConfigFromTeamSettings devEnv.TeamSettings).1, devEnv.SourceURL)
        | none => .ok ([.createJXClient, .getDevEnvironment ns], none, "")
    | (some devEnv, none) =>
      .ok ([.createJXClient, .getDevEnvironment ns, .getRequirementsConfigFromTeamSettings],
        (w.GetRequirementsConfigFromTeamSettings devEnv.TeamSettings).1, devEnv.SourceURL)
    | (none, none) => .ok ([.createJXClient, .getDevEnvironment ns], none, "")

/-- Embeds `RunOptions.findRequirementsAndGitURL` (run.go 217-265): trace, requirements, git URL
and error.  Lines 225-239 are `resolveCluster`, lines 240-248 `resolveOverride`, lines 250-255
`resolveLocal` and lines 257-264 `resolveRemote`. -/
def findRequirementsAndGitURL (w : World) (o : RunOptions) :
    List Event × Option RequirementsConfig × String × Option Err :=
  match resolveCluster w with
  | .error (tr, err) => (tr, none, "", some err)
  | .ok (tr, requirements, gitURL) => resolveOverride w o tr requirements gitURL

/-! ## `run.go`: the boot-secret verifier and the chart-version resolver -/

/-- Embeds `RunOptions.verifyBootSecret` (run.go 280-318), for the non-nil requirements it is
called with (`RunBootJob` reads `requirements.Cluster.ClusterName` first).  The calls of
`warnNoSecret` only log and are left out. -/
def verifyBootSecret (w : World) (requirements : RequirementsConfig) :
    List Event × Option Err :=
  match w.CreateKubeClient with
  | (_, some err) => ([.createKubeClient], some (.wrap err "failed to create kube client"))
  | (ns, none) =>
    let reqNs := requirements.Cluster.Namespace
    if reqNs ≠ "" ∧ reqNs ≠ ns then
      ([.createKubeClient], some (.errorf ("you are currently in the " ++ ns ++
        " namespace but this cluster needs to be booted in namespace " ++ reqNs ++
        ". please use \x27jx ns " ++ reqNs ++ "\x27 to switch namespace")))
    else
      let name := w.LocalSecret
      match w.GetSecret ns name with
      | (_, some err) =>
        if IsNotFound err then
          ([.createKubeClient, .getSecret ns name], some (.errorf ("boot secret " ++ name ++
            " not found in namespace " ++ ns ++
            ". are you sure you are running this command in the right namespace and cluster")))
        else
          ([.createKubeClient, .getSecret ns name], some (.wrap err
            ("failed to look for boot secret " ++ name ++ "  in namespace " ++ ns)))
      | (none, none) =>
        ([.createKubeClient, .getSecret ns name], some (.errorf ("null boot secret " ++ name ++
          " found in namespace " ++ ns ++
          ". are you sure you are running this command in the right namespace and cluster")))
      | (some secret, none) =>
        let key := "secrets.yaml"
        let found : Bool :=
          match secret.Data with
          | some m => decide (((m.lookup key).getD []).length > 0)
          | none => false
        if !found then
          ([.createKubeClient, .getSecret ns name], some (.errorf ("boot secret " ++ name ++
            " in namespace " ++ ns ++ " does not contain key: " ++ key)))
        else ([.createKubeClient, .getSecret ns name], none)

/-- The guard of `findChartVersion` (run.go 321): the chart name is empty, starts with
`.`, `/` or a backslash, or holds more than one `/`. -/
def isRelativeChart (chartName : String) : Bool :=
  chartName = "" || chartName.data.head? = some '.' || chartName.data.head? = some '/' ||
    chartName.data.head? = some '\\' || decide (chartName.data.count '/' > 1)

/-- Embeds `RunOptions.findChartVersion` (run.go 320-337), for the non-nil requirements it is
called with: trace, version and error. -/
def findChartVersion (w : World) (o : RunOptions) (req : RequirementsConfig) :
    List Event × String × Option Err :=
  if isRelativeChart o.ChartName then ([], "", none)
  else
    let u := req.VersionStream.URL
    let ref := req.VersionStream.Ref
    match w.GetVersionNumber o.ChartName u ref with
    | (version, some err) =>
      ([.getVersionNumber o.ChartName u ref], version, some (.wrap err
        ("failed to find version of chart " ++ o.ChartName ++ " in version stream " ++ u ++
          " ref " ++ ref)))
    | (version, none) => ([.getVersionNumber o.ChartName u ref], version, none)

/-! ## `run.go`: the job supervisor and the job launcher -/

/-- How a call of a Go function ends. -/
inductive Outcome where
  /-- the function returned this error (`none` is nil) -/
  | returned (err : Option Err)
  /-- a nil pointer was dereferenced -/
  | nilDereference
  /-- the supervision loop has used every scripted answer and is still running -/
  | running
  deriving DecidableEq, Repr

/-- The label selector of `tailJobLogs` (run.go 175-177). -/
def selector : List (String × String) := [("job-name", "jx-boot")]

/-- The container name of `tailJobLogs` (run.go 178). -/
def containerName : String := "boot"

/-- The `for` loop of `tailJobLogs` (run.go 180-205).  `err` is the function-level
variable `err` at the head of the iteration; the `err` of line 196 is a new variable of
the loop body.  Each iteration uses up one scripted round of answers. -/
def tailLoop (w : World) (ns : String) : Option Err → List PodRound → List Event × Outcome
  | some err, _ => ([], .returned (some err))
  | none, [] => ([], .running)
  | none, r :: rest =>
    match r.wait with
    | (_, some err) => ([.waitForReadyPodForSelectorLabels ns selector], .returned (some err))
    | (pod, none) =>
      if pod = "" then
        ([.waitForReadyPodForSelectorLabels ns selector], .returned (some (.errorf
          ("No pod found for namespace " ++ ns ++ " with selector map[job-name:jx-boot]"))))
      else
        match r.tail with
        | some _ =>
          ([.waitForReadyPodForSelectorLabels ns selector, .tailLogs ns pod containerName],
            .returned none)
        | none =>
          match r.get with
          | (_, some err) =>
            ([.waitForReadyPodForSelectorLabels ns selector, .tailLogs ns pod containerName,
              .getPod ns pod none],
              .returned (some (.wrap err ("failed to get pod " ++ pod ++ " in namespace " ++ ns))))
          | (podResource, none) =>
            if w.IsPodCompleted podResource then
              ([.waitForReadyPodForSelectorLabels ns selector, .tailLogs ns pod containerName,
                .getPod ns pod (some podResource)], .returned none)
            else
              (([.waitForReadyPodForSelectorLabels ns selector, .tailLogs ns pod containerName,
                .getPod ns pod (some podResource)] : List Event) ++ (tailLoop w ns none rest).1,
                (tailLoop w ns none rest).2)

/-- Embeds `RunOptions.tailJobLogs` (run.go 167-206): trace and outcome. -/
def tailJobLogs (w : World) : List Event × Outcome :=
  match w.CreateKubeClient with
  | (_, some err) => ([.createKubeClient], .returned (some err))
  | (ns, none) =>
    (Event.createKubeClient :: (tailLoop w ns none w.rounds).1, (tailLoop w ns none w.rounds).2)

/-- The command of run.go 123-126. -/
def helmDelete : Command := ⟨"helm", ["delete", "jx-boot"]⟩

/-- Embeds `RunOptions.RunBootJob` (run.go 110-165): trace and outcome.  The errors of
`helm delete jx-boot` and of `UpdateRepo` are only logged, and log output is left out. -/
def RunBootJob (w : World) (o : RunOptions) : List Event × Outcome :=
  match findRequirementsAndGitURL w o with
  | (t1, _, _, some err) => (t1, .returned (some err))
  | (t1, requirements, gitURL, none) =>
    if gitURL = "" then (t1, .returned (some (.missingOption "git-url")))
    else
      match requirements with
      | none => (t1, .nilDereference)
      | some req =>
        match verifyBootSecret w req with
        | (t2, some err) => (t1 ++ [.runCommand helmDelete] ++ t2, .returned (some err))
        | (t2, none) =>
          match w.AddHelmRepoIfMissing with
          | some err =>
            (t1 ++ [.runCommand helmDelete] ++ t2 ++ [.addHelmRepoIfMissing],
              .returned (some (.wrap err "failed to add Jenkins X Labs chart repository")))
          | none =>
            match findChartVersion w o req with
            | (t3, _, some err) =>
              (t1 ++ [.runCommand helmDelete] ++ t2 ++ [.addHelmRepoIfMissing, .updateRepo] ++ t3,
                .returned (some err))
            | (t3, version, none) =>
              let c := w.GetBootJobCommand req gitURL o.ChartName version
              let commandLine := c.Name ++ " " ++ " ".intercalate c.Args
              match w.RunWithoutRetry c with
              | some err =>
                (t1 ++ [.runCommand helmDelete] ++ t2 ++ [.addHelmRepoIfMissing, .updateRepo] ++ t3
                  ++ [.getBootJobCommand gitURL o.ChartName version, .runCommand c],
                  .returned (some (.wrap err ("failed to run command " ++ commandLine))))
              | none =>
                (t1 ++ [.runCommand helmDelete] ++ t2 ++ [.addHelmRepoIfMissing, .updateRepo] ++ t3
                  ++ [.getBootJobCommand gitURL o.ChartName version, .runCommand c]
                  ++ (tailJobLogs w).1, (tailJobLogs w).2)

/-! ## `env_factory.go`: the repository-creation request -/

/-- The fields of `EnvFactory` that are plain values. -/
structure EnvFactory where
  RepoName : String
  GitURLOutFile : String
  BatchMode : Bool
  OutDir : String
  deriving DecidableEq, Repr

/-- The fields of `CreateRepository` set by `CreateDevEnvGitRepository` before
`ConfirmValues`. -/
structure CreateRepository where
  GitServer : String
  GitKind : String
  Owner : String
  Repository : String
  deriving DecidableEq, Repr

/-- How lines 41-64 of `CreateDevEnvGitRepository` end. -/
inductive RequestResult where
  /-- the function returned this error before building a request -/
  | failed (err : Err)
  /-- the pointer `requirements` was nil when its cluster settings were read -/
  | nilDereference
  /-- the request handed to `ConfirmValues` -/
  | built (cr : CreateRepository)
  deriving DecidableEq, Repr

/-- Embeds `EnvFactory.CreateDevEnvGitRepository` up to the call of `ConfirmValues`
(env_factory.go 41-64).  `LoadRequirementsConfig` and `GetDevEnvironmentConfig` are the
answers of `config.LoadRequirementsConfig` and `reqhelpers.GetDevEnvironmentConfig`. -/
def createDevEnvRequest
    (LoadRequirementsConfig : String → Option RequirementsConfig × String × Option Err)
    (GetDevEnvironmentConfig : Option RequirementsConfig → Option EnvironmentConfig)
    (o : EnvFactory) (dir : String) : RequestResult :=
  match LoadRequirementsConfig dir with
  | (_, _, some err) => .failed (.wrap err ("failed to load requirements from " ++ dir))
  | (requirements, fileName, none) =>
    match GetDevEnvironmentConfig requirements with
    | none =>
      .failed (.errorf ("the file " ++ fileName ++ " does not contain a development environment"))
    | some dev =>
      match requirements with
      | none => .nilDereference
      | some req =>
        let cr : CreateRepository :=
          ⟨req.Cluster.GitServer, req.Cluster.GitKind, dev.Owner, dev.Repository⟩
        let cr : CreateRepository :=
          if cr.Owner = "" then ⟨cr.GitServer, cr.GitKind, req.Cluster.EnvironmentGitOwner, cr.Repository⟩
          else cr
        let cr : CreateRepository :=
          if cr.Repository = "" then ⟨cr.GitServer, cr.GitKind, cr.Owner, o.RepoName⟩ else cr
        .built cr

/-! ## Observations on traces and rounds -/

/-- The events by which `RunBootJob` acts on the outside: a command is run, the chart
repository is added or updated, the installer-job command is built. -/
def Event.isAction : Event → Bool
  | .runCommand _ => true
  | .addHelmRepoIfMissing => true
  | .updateRepo => true
  | .getBootJobCommand _ _ _ => true
  | _ => false

/-- No action is recorded in the trace: no command run, no chart repository added or
updated, no installer-job command built. -/
def readOnly (t : List Event) : Prop := ∀ e ∈ t, Event.isAction e = false

instance (t : List Event) : Decidable (readOnly t) := by
  unfold readOnly
  infer_instance

/-- The pod object most recently fetched by `podInterface.Get` according to a trace. -/
def lastFetchedPod : List Event → Option Pod
  | [] => none
  | e :: t =>
    match lastFetchedPod t with
    | some p => some p
    | none =>
      match e with
      | .getPod _ _ (some p) => some p
      | _ => none

/-- The answers of a round send the loop of `tailJobLogs` into its next iteration: a
ready pod with a name, a log stream that ends without error, a pod fetched without error
that is not completed. -/
def goesOn (w : World) (r : PodRound) : Bool :=
  r.wait.2 = none && r.wait.1 ≠ "" && r.tail = none && r.get.2 = none &&
    !w.IsPodCompleted r.get.1

/-! ## Concrete worlds -/

/-- A requirements document with a development environment that names neither owner nor
repository. -/
def sampleRequirements : RequirementsConfig :=
  ⟨⟨"mycluster", "jx", "https://github.com", "github", "myorg"⟩,
    ⟨"https://github.com/jenkins-x/jenkins-x-versions.git", "master"⟩, [⟨"dev", "", ""⟩]⟩

/-- The document `sampleRequirements` with another environment git owner. -/
def otherOwnerRequirements : RequirementsConfig :=
  { sampleRequirements with
    Cluster := { sampleRequirements.Cluster with EnvironmentGitOwner := "otherorg" } }

/-- An instance of `reqhelpers.GetDevEnvironmentConfig`: the environment with key `dev`. -/
def devEnvironmentOf (requirements : Option RequirementsConfig) : Option EnvironmentConfig :=
  requirements.bind (fun r => r.Environments.find? (fun e => e.Key = "dev"))

/-- The plain values of an `EnvFactory` created with `--repo environment-mycluster-dev`. -/
def sampleFactory : EnvFactory := ⟨"environment-mycluster-dev", "", true, ""⟩

/-- A cluster that was never booted, seen from a directory that holds neither a
requirements file nor a git clone, and without a boot secret; every other world changes
some of these answers. -/
def emptyWorld : World where
  CreateJXClient := ("jx", none)
  GetDevEnvironment := fun _ => (none, none)
  GetRequirementsConfigFromTeamSettings := fun _ => (none, none)
  GetRequirementsFromGit := fun _ => (none, some (.external "git clone failed" false))
  LoadRequirementsConfig := fun _ =>
    (none, "", some (.external "jx-requirements.yml file not found" false))
  FindGitConfigDir := fun _ => ("", "", none)
  DiscoverUpstreamGitURL := fun _ => ("", none)
  CreateKubeClient := ("jx", none)
  GetSecret := fun _ _ => (none, some (.external "secret not found" true))
  RunWithoutRetry := fun _ => none
  AddHelmRepoIfMissing := none
  UpdateRepo := none
  GetVersionNumber := fun _ _ _ => ("1.0.0", none)
  GetBootJobCommand := fun _ gitURL chartName version =>
    ⟨"helm", ["install", "jx-boot", chartName, "--version", version, "--set", gitURL]⟩
  IsPodCompleted := fun p => p.Phase = "Succeeded" || p.Phase = "Failed"
  LocalSecret := "jx-boot-secrets"
  rounds := []

/-- Scenario A: no dev-environment record, no local requirements file, the requirements
are in the git repository. -/
def gitOnlyWorld : World :=
  { emptyWorld with GetRequirementsFromGit := fun _ => (some sampleRequirements, none) }

/-- A booted cluster: the dev-environment record holds a source URL and requirements. -/
def bootedWorld : World :=
  { emptyWorld with
    GetDevEnvironment := fun _ =>
      (some ⟨"https://github.com/myorg/env-dev.git", "cluster: mycluster"⟩, none)
    GetRequirementsConfigFromTeamSettings := fun _ => (some sampleRequirements, none) }

/-- A directory with a requirements file and a git clone of the environment repository;
the cluster has no boot secret. -/
def cloneWorld : World :=
  { emptyWorld with
    LoadRequirementsConfig := fun _ => (some sampleRequirements, "jx-requirements.yml", none)
    FindGitConfigDir := fun _ => (".", ".git", none)
    DiscoverUpstreamGitURL := fun _ => ("https://github.com/myorg/env-dev.git", none) }

/-- A directory with a requirements file and a git clone whose upstream URL is empty. -/
def emptyRemoteWorld : World :=
  { cloneWorld with DiscoverUpstreamGitURL := fun _ => ("", none) }

/-- Scenario B: the boot secret exists in namespace `jx` but has no `secrets.yaml` key. -/
def keylessSecretWorld : World :=
  { cloneWorld with GetSecret := fun _ _ => (some ⟨some [("other.yaml", [107, 58, 118])]⟩, none) }

/-- The job pod while it runs. -/
def runningPod : Pod := ⟨"jx-boot-7xk2p", "Running"⟩

/-- The job pod after it has succeeded. -/
def succeededPod : Pod := ⟨"jx-boot-7xk2p", "Succeeded"⟩

/-- Scenario D round: the pod is found, its logs stream to the end, and the pod fetched
afterwards is still running. -/
def runningRound : PodRound := ⟨("jx-boot-7xk2p", none), none, (runningPod, none)⟩

/-- A round in which the pod is found and the log stream returns an error. -/
def streamErrorRound : PodRound :=
  ⟨("jx-boot-7xk2p", none), some (.external "error streaming logs" false), (runningPod, none)⟩

/-- A round in which the pod is found, its logs stream to the end, and the pod fetched
afterwards has succeeded. -/
def succeededRound : PodRound := ⟨("jx-boot-7xk2p", none), none, (succeededPod, none)⟩

/-- The control plane answers a running round, then a round whose log stream fails. -/
def streamErrorWorld : World := { cloneWorld with rounds := [runningRound, streamErrorRound] }

/-- The control plane answers a running round, then a round with a succeeded pod. -/
def succeededWorld : World := { cloneWorld with rounds := [runningRound, succeededRound] }

/-- The `run` options with `--git-url https://example.com/org/repo.git`. -/
def overrideOptions : RunOptions :=
  ⟨".", "https://example.com/org/repo.git", "jx-labs/jxl-boot", true⟩

/-- The `run` options without `--git-url`. -/
def plainOptions : RunOptions := ⟨".", "", "jx-labs/jxl-boot", true⟩

/-- The `run` options of scenario C: `--chart ./charts/boot`. -/
def localChartOptions : RunOptions := ⟨".", "", "./charts/boot", true⟩

/-! # Theorems -/

/-! ## The resolver, stage by stage -/

theorem findGitURLFromDir_ok (w : World) (o : RunOptions) (t : List Event) (u : String)
    (h : findGitURLFromDir w o = (t, u, none)) :
    ∃ root conf, w.FindGitConfigDir o.Dir = (root, conf, none) ∧ conf ≠ "" ∧
      w.DiscoverUpstreamGitURL conf = (u, none) ∧
      t = [.findGitConfigDir o.Dir, .discoverUpstreamGitURL conf] := by
  unfold findGitURLFromDir at h
  rcases hF : w.FindGitConfigDir o.Dir with ⟨root, conf, _ | e⟩
  · simp only [hF] at h
    by_cases hc : conf = ""
    · simp [hc] at h
    · simp only [hc, if_false] at h
      rcases hD : w.DiscoverUpstreamGitURL conf with ⟨u', e'⟩
      rw [hD] at h
      simp only [Prod.mk.injEq] at h
      obtain ⟨rfl, rfl, rfl⟩ := h
      exact ⟨root, conf, rfl, hc, hD, rfl⟩
  · simp [hF] at h

theorem resolveRemote_ok (w : World) (o : RunOptions) (tr : List Event)
    (rq : Option RequirementsConfig) (g : String)
    (t : List Event) (r : Option RequirementsConfig) (u : String)
    (h : resolveRemote w o tr rq g = (t, r, u, none)) :
    r = rq ∧ (g ≠ "" → u = g ∧ t = tr) ∧
    (g = "" → ∃ root conf, w.FindGitConfigDir o.Dir = (root, conf, none) ∧ conf ≠ "" ∧
      w.DiscoverUpstreamGitURL conf = (u, none) ∧
      t = tr ++ [.findGitConfigDir o.Dir, .discoverUpstreamGitURL conf]) := by
  unfold resolveRemote at h
  by_cases hg : g = ""
  · simp only [hg, if_true] at h
    rcases hf : findGitURLFromDir w o with ⟨t', u', _ | e⟩
    · rw [hf] at h
      simp only [Prod.mk.injEq] at h
      obtain ⟨rfl, rfl, rfl, -⟩ := h
      obtain ⟨root, conf, h1, h2, h3, h4⟩ := findGitURLFromDir_ok w o t' u' hf
      exact ⟨rfl, fun hne => absurd hg hne, fun _ => ⟨root, conf, h1, h2, h3, by rw [h4]⟩⟩
    · rw [hf] at h
      simp at h
  · simp only [hg, if_false, Prod.mk.injEq] at h
    obtain ⟨rfl, rfl, rfl, -⟩ := h
    exact ⟨rfl, fun _ => ⟨rfl, rfl⟩, fun he => absurd he hg⟩

theorem resolveLocal_ok (w : World) (o : RunOptions) (tr : List Event)
    (rq : Option RequirementsConfig) (g : String)
    (t : List Event) (r : Option RequirementsConfig) (u : String)
    (h : resolveLocal w o tr rq g = (t, r, u, none)) :
    (g ≠ "" → u = g) ∧
    (g = "" → ∃ root conf, w.FindGitConfigDir o.Dir = (root, conf, none) ∧ conf ≠ "" ∧
      w.DiscoverUpstreamGitURL conf = (u, none)) ∧
    (∀ doc, rq = some doc → r = some doc ∧
      ∀ dir, Event.loadRequirementsConfig dir ∈ t → Event.loadRequirementsConfig dir ∈ tr) := by
  unfold resolveLocal at h
  cases rq with
  | none =>
    simp only at h
    rcases hl : w.LoadRequirementsConfig o.Dir with ⟨r', f, _ | e⟩
    · rw [hl] at h
      simp only at h
      obtain ⟨-, h2, h3⟩ := resolveRemote_ok w o _ r' g t r u h
      refine ⟨fun hg => (h2 hg).1, fun hg => ?_, fun doc hd => by cases hd⟩
      obtain ⟨root, conf, a, b, c, -⟩ := h3 hg
      exact ⟨root, conf, a, b, c⟩
    · rw [hl] at h
      simp at h
  | some d =>
    simp only at h
    obtain ⟨h1, h2, h3⟩ := resolveRemote_ok w o _ (some d) g t r u h
    refine ⟨fun hg => (h2 hg).1, fun hg => ?_, fun doc hd => ⟨by rw [h1, hd], fun dir hm => ?_⟩⟩
    · obtain ⟨root, conf, a, b, c, -⟩ := h3 hg
      exact ⟨root, conf, a, b, c⟩
    · by_cases hg : g = ""
      · obtain ⟨root, conf, -, -, -, e⟩ := h3 hg
        rw [e] at hm
        simpa using hm
      · rw [(h2 hg).2] at hm
        exact hm

theorem resolveRemote_extends (w : World) (o : RunOptions) (tr : List Event)
    (rq : Option RequirementsConfig) (g : String) :
    ∀ e ∈ tr, e ∈ (resolveRemote w o tr rq g).1 := by
  intro e he
  unfold resolveRemote
  split
  · split <;> exact List.mem_append_left _ he
  · exact he

theorem resolveLocal_extends (w : World) (o : RunOptions) (tr : List Event)
    (rq : Option RequirementsConfig) (g : String) :
    ∀ e ∈ tr, e ∈ (resolveLocal w o tr rq g).1 := by
  intro e he
  unfold resolveLocal
  split
  · split
    · exact List.mem_append_left _ he
    · exact resolveRemote_extends w o _ _ g e (List.mem_append_left _ he)
  · exact resolveRemote_extends w o _ _ g e he

theorem resolveOverride_fetch (w : World) (o : RunOptions) (tr : List Event) (g : String)
    (t : List Event) (r : Option RequirementsConfig) (u : String)
    (hov : o.GitURL ≠ "")
    (h : resolveOverride w o tr none g = (t, r, u, none)) :
    Event.getRequirementsFromGit o.GitURL ∈ t ∧ (w.GetRequirementsFromGit o.GitURL).2 = none := by
  unfold resolveOverride at h
  simp only [ne_eq, hov, not_false_eq_true, if_true] at h
  rcases hg : w.GetRequirementsFromGit o.GitURL with ⟨r', _ | e⟩
  · rw [hg] at h
    simp only at h
    refine ⟨?_, rfl⟩
    have := resolveLocal_extends w o (tr ++ [Event.getRequirementsFromGit o.GitURL]) r' o.GitURL
      (Event.getRequirementsFromGit o.GitURL) (by simp)
    rw [h] at this
    exact this
  · rw [hg] at h
    simp at h

theorem resolveOverride_ok (w : World) (o : RunOptions) (tr : List Event)
    (rq : Option RequirementsConfig) (g : String)
    (t : List Event) (r : Option RequirementsConfig) (u : String)
    (h : resolveOverride w o tr rq g = (t, r, u, none)) :
    (o.GitURL ≠ "" → u = o.GitURL ∧ (rq = none →
      ∀ doc, (w.GetRequirementsFromGit o.GitURL).1 = some doc → r = some doc ∧
        ∀ dir, Event.loadRequirementsConfig dir ∈ t → Event.loadRequirementsConfig dir ∈ tr)) ∧
    (o.GitURL = "" → (g ≠ "" → u = g) ∧
      (g = "" → ∃ root conf, w.FindGitConfigDir o.Dir = (root, conf, none) ∧ conf ≠ "" ∧
        w.DiscoverUpstreamGitURL conf = (u, none))) := by
  unfold resolveOverride at h
  by_cases ho : o.GitURL = ""
  · simp only [ho, ne_eq, not_true_eq_false, if_false] at h
    obtain ⟨h1, h2, -⟩ := resolveLocal_ok w o tr rq g t r u h
    exact ⟨fun hne => absurd ho hne, fun _ => ⟨h1, h2⟩⟩
  · simp only [ne_eq, ho, not_false_eq_true, if_true] at h
    refine ⟨fun _ => ?_, fun he => absurd he ho⟩
    cases rq with
    | none =>
      simp only at h
      rcases hg : w.GetRequirementsFromGit o.GitURL with ⟨r', _ | e⟩
      · rw [hg] at h
        simp only at h
        obtain ⟨h1, -, h3⟩ := resolveLocal_ok w o _ r' o.GitURL t r u h
        refine ⟨h1 ho, fun _ doc hd => ?_⟩
        simp only at hd
        obtain ⟨ha, hb⟩ := h3 doc hd
        refine ⟨ha, fun dir hm => ?_⟩
        have := hb dir hm
        simpa using this
      · rw [hg] at h
        simp at h
    | some d =>
      simp only at h
      obtain ⟨h1, -, -⟩ := resolveLocal_ok w o tr (some d) o.GitURL t r u h
      exact ⟨h1 ho, fun hn => by cases hn⟩

/-! ## Traces without actions -/

theorem readOnly_append {s t : List Event} (hs : readOnly s) (ht : readOnly t) :
    readOnly (s ++ t) := by
  intro e he
  rcases List.mem_append.mp he with h | h
  · exact hs e h
  · exact ht e h

theorem findGitURLFromDir_readOnly (w : World) (o : RunOptions) :
    readOnly (findGitURLFromDir w o).1 := by
  unfold findGitURLFromDir
  intro e he
  dsimp only at he
  split at he
  · simp at he; subst he; rfl
  · split at he
    · simp at he; subst he; rfl
    · simp at he
      rcases he with rfl | rfl <;> rfl

theorem resolveRemote_readOnly (w : World) (o : RunOptions) (tr : List Event)
    (rq : Option RequirementsConfig) (g : String) (htr : readOnly tr) :
    readOnly (resolveRemote w o tr rq g).1 := by
  unfold resolveRemote
  have hf := findGitURLFromDir_readOnly w o
  split
  · split
    · rename_i heq
      rw [heq] at hf
      exact readOnly_append htr hf
    · rename_i heq
      rw [heq] at hf
      exact readOnly_append htr hf
  · exact htr

theorem resolveLocal_readOnly (w : World) (o : RunOptions) (tr : List Event)
    (rq : Option RequirementsConfig) (g : String) (htr : readOnly tr) :
    readOnly (resolveLocal w o tr rq g).1 := by
  have hl : readOnly (tr ++ [Event.loadRequirementsConfig o.Dir]) :=
    readOnly_append htr (by intro e he; simp at he; subst he; rfl)
  unfold resolveLocal
  split
  · split
    · exact hl
    · exact resolveRemote_readOnly w o _ _ g hl
  · exact resolveRemote_readOnly w o _ _ g htr

theorem resolveOverride_readOnly (w : World) (o : RunOptions) (tr : List Event)
    (rq : Option RequirementsConfig) (g : String) (htr : readOnly tr) :
    readOnly (resolveOverride w o tr rq g).1 := by
  have hl : readOnly (tr ++ [Event.getRequirementsFromGit o.GitURL]) :=
    readOnly_append htr (by intro e he; simp at he; subst he; rfl)
  unfold resolveOverride
  split
  · split
    · split
      · exact hl
      · exact resolveLocal_readOnly w o _ _ _ hl
    · exact resolveLocal_readOnly w o _ _ _ htr
  · exact resolveLocal_readOnly w o _ _ _ htr

theorem resolveCluster_trace (w : World) (tc : List Event) (rc : Option RequirementsConfig)
    (c : String) (h : resolveCluster w = .ok (tc, rc, c)) :
    ∀ e ∈ tc, e = .createJXClient ∨ e = .getDevEnvironment w.CreateJXClient.1 ∨
      e = .getRequirementsConfigFromTeamSettings := by
  unfold resolveCluster at h
  split at h
  · simp at h
  · rename_i ns hns
    split at h
    · split at h
      · simp at h
      · split at h <;>
        · simp only [Except.ok.injEq, Prod.mk.injEq] at h
          obtain ⟨rfl, -, -⟩ := h
          simp [hns]
    · simp only [Except.ok.injEq, Prod.mk.injEq] at h
      obtain ⟨rfl, -, -⟩ := h
      simp [hns]
    · simp only [Except.ok.injEq, Prod.mk.injEq] at h
      obtain ⟨rfl, -, -⟩ := h
      simp [hns]

theorem findRequirementsAndGitURL_readOnly (w : World) (o : RunOptions) :
    readOnly (findRequirementsAndGitURL w o).1 := by
  unfold findRequirementsAndGitURL
  split
  · rename_i tr err heq
    intro e he
    simp only at he
    unfold resolveCluster at heq
    split at heq
    · simp only [Except.error.injEq, Prod.mk.injEq] at heq
      obtain ⟨rfl, -⟩ := heq
      simp at he; subst he; rfl
    · split at heq
      · split at heq
        · simp only [Except.error.injEq, Prod.mk.injEq] at heq
          obtain ⟨rfl, -⟩ := heq
          simp at he
          rcases he with rfl | rfl <;> rfl
        · split at heq <;> simp at heq
      · simp at heq
      · simp at heq
  · rename_i tr rq g heq
    apply resolveOverride_readOnly
    intro e he
    rcases resolveCluster_trace w tr rq g heq e he with rfl | rfl | rfl <;> rfl

theorem verifyBootSecret_readOnly (w : World) (req : RequirementsConfig) :
    readOnly (verifyBootSecret w req).1 := by
  unfold verifyBootSecret
  intro e he
  dsimp only at he
  have h1 : ∀ e, e ∈ [Event.createKubeClient] → Event.isAction e = false := by
    intro e he; simp at he; subst he; rfl
  have h2 : ∀ ns name e, e ∈ [Event.createKubeClient, Event.getSecret ns name] →
      Event.isAction e = false := by
    intro ns name e he; simp at he; rcases he with rfl | rfl <;> rfl
  split at he
  · exact h1 e he
  · split at he
    · exact h1 e he
    · split at he
      · split at he <;> exact h2 _ _ e he
      · exact h2 _ _ e he
      · split at he <;> exact h2 _ _ e he

theorem verifyBootSecret_keyless (w : World) (req : RequirementsConfig) (ns : String)
    (secret : Secret)
    (hclient : w.CreateKubeClient = (ns, none))
    (hns : req.Cluster.Namespace = "" ∨ req.Cluster.Namespace = ns)
    (hget : w.GetSecret ns w.LocalSecret = (some secret, none))
    (hkey : secret.Data = none ∨ ∃ m, secret.Data = some m ∧
      (m.lookup "secrets.yaml" = none ∨ m.lookup "secrets.yaml" = some [])) :
    verifyBootSecret w req =
      ([.createKubeClient, .getSecret ns w.LocalSecret],
        some (.errorf ("boot secret " ++ w.LocalSecret ++ " in namespace " ++ ns ++
          " does not contain key: " ++ "secrets.yaml"))) := by
  unfold verifyBootSecret
  rw [hclient]
  have hn : ¬ (req.Cluster.Namespace ≠ "" ∧ req.Cluster.Namespace ≠ ns) := by
    rintro ⟨a, b⟩
    rcases hns with h | h
    · exact a h
    · exact b h
  simp only [hn, if_false, hget]
  rcases hkey with h | ⟨m, h, h' | h'⟩
  · simp [h]
  · simp [h, h']
  · simp [h, h']

theorem findChartVersion_readOnly (w : World) (o : RunOptions) (req : RequirementsConfig) :
    readOnly (findChartVersion w o req).1 := by
  unfold findChartVersion
  intro e he
  split at he
  · simp at he
  · dsimp only at he
    split at he <;>
    · simp at he; subst he; rfl

theorem tailLoop_readOnly (w : World) (ns : String) (rounds : List PodRound) :
    readOnly (tailLoop w ns none rounds).1 := by
  induction rounds with
  | nil => intro e he; simp [tailLoop] at he
  | cons r rest ih =>
    intro e he
    unfold tailLoop at he
    split at he
    · simp at he; subst he; rfl
    · split at he
      · simp at he; subst he; rfl
      · split at he
        · simp at he; rcases he with rfl | rfl <;> rfl
        · split at he
          · simp at he; rcases he with rfl | rfl | rfl <;> rfl
          · split at he
            · simp at he; rcases he with rfl | rfl | rfl <;> rfl
            · simp only [List.mem_append, List.mem_cons, List.mem_singleton,
                List.not_mem_nil, or_false] at he
              rcases he with (rfl | rfl | rfl) | he
              · rfl
              · rfl
              · rfl
              · exact ih e he

theorem tailJobLogs_readOnly (w : World) : readOnly (tailJobLogs w).1 := by
  unfold tailJobLogs
  intro e he
  split at he
  · simp at he; subst he; rfl
  · simp only [List.mem_cons] at he
    rcases he with rfl | he
    · rfl
    · exact tailLoop_readOnly w _ _ e he

theorem readOnly_not_built {t : List Event} (ht : readOnly t) (g c v : String) :
    Event.getBootJobCommand g c v ∉ t :=
  fun hm => by have := ht _ hm; simp [Event.isAction] at this

theorem RunBootJob_verify_fails (w : World) (o : RunOptions) (t1 t2 : List Event)
    (req : RequirementsConfig) (url : String) (err : Err)
    (hres : findRequirementsAndGitURL w o = (t1, some req, url, none))
    (hurl : url ≠ "")
    (hver : verifyBootSecret w req = (t2, some err)) :
    RunBootJob w o = (t1 ++ [.runCommand helmDelete] ++ t2, .returned (some err)) := by
  unfold RunBootJob
  rw [hres]
  simp only [hurl, if_false, hver]

theorem RunBootJob_built_url (w : World) (o : RunOptions) (g c v : String)
    (hm : Event.getBootJobCommand g c v ∈ (RunBootJob w o).1) : g ≠ "" := by
  have h1 := findRequirementsAndGitURL_readOnly w o
  unfold RunBootJob at hm
  split at hm
  · rename_i heq
    rw [heq] at h1
    exact absurd hm (readOnly_not_built h1 g c v)
  · rename_i t1 rq url heq
    rw [heq] at h1
    have n1 := readOnly_not_built h1 g c v
    split at hm
    · exact absurd hm n1
    · rename_i hurl
      split at hm
      · exact absurd hm n1
      · rename_i req
        have h2 := verifyBootSecret_readOnly w req
        split at hm
        · rename_i heq2
          rw [heq2] at h2
          have n2 := readOnly_not_built h2 g c v
          simp only [List.mem_append, List.mem_singleton] at hm
          rcases hm with (hm | hm) | hm
          · exact absurd hm n1
          · cases hm
          · exact absurd hm n2
        · rename_i heq2
          rw [heq2] at h2
          have n2 := readOnly_not_built h2 g c v
          split at hm
          · simp only [List.mem_append, List.mem_singleton] at hm
            rcases hm with ((hm | hm) | hm) | hm
            · exact absurd hm n1
            · cases hm
            · exact absurd hm n2
            · cases hm
          · have h3 := findChartVersion_readOnly w o req
            split at hm
            · rename_i heq3
              rw [heq3] at h3
              have n3 := readOnly_not_built h3 g c v
              simp only [List.mem_append, List.mem_singleton, List.mem_cons,
                List.not_mem_nil, or_false] at hm
              rcases hm with (((hm | hm) | hm) | hm) | hm
              · exact absurd hm n1
              · cases hm
              · exact absurd hm n2
              · rcases hm with hm | hm <;> cases hm
              · exact absurd hm n3
            · rename_i heq3
              rw [heq3] at h3
              have n3 := readOnly_not_built h3 g c v
              have n4 := readOnly_not_built (tailJobLogs_readOnly w) g c v
              dsimp only at hm
              split at hm
              · simp only [List.mem_append, List.mem_singleton, List.mem_cons,
                  List.not_mem_nil, or_false] at hm
                rcases hm with ((((hm | hm) | hm) | hm) | hm) | hm
                · exact absurd hm n1
                · cases hm
                · exact absurd hm n2
                · rcases hm with hm | hm <;> cases hm
                · exact absurd hm n3
                · rcases hm with hm | hm
                  · cases hm; exact hurl
                  · cases hm
              · simp only [List.mem_append, List.mem_singleton, List.mem_cons,
                  List.not_mem_nil, or_false] at hm
                rcases hm with (((((hm | hm) | hm) | hm) | hm) | hm) | hm
                · exact absurd hm n1
                · cases hm
                · exact absurd hm n2
                · rcases hm with hm | hm <;> cases hm
                · exact absurd hm n3
                · rcases hm with hm | hm
                  · cases hm; exact hurl
                  · cases hm
                · exact absurd hm n4

/-! ## The supervision loop -/

theorem lastFetchedPod_append (s t : List Event) (p : Pod) (h : lastFetchedPod t = some p) :
    lastFetchedPod (s ++ t) = some p := by
  induction s with
  | nil => simpa using h
  | cons e s ih => simp [lastFetchedPod, ih]

theorem tailLoop_next (w : World) (ns : String) (r : PodRound) (rest : List PodRound)
    (pod : String) (p : Pod)
    (hwait : r.wait = (pod, none)) (hpod : pod ≠ "") (htail : r.tail = none)
    (hget : r.get = (p, none)) (hnc : w.IsPodCompleted p = false) :
    tailLoop w ns none (r :: rest) =
      ([.waitForReadyPodForSelectorLabels ns selector, .tailLogs ns pod containerName,
        .getPod ns pod (some p)] ++ (tailLoop w ns none rest).1,
        (tailLoop w ns none rest).2) := by
  rw [tailLoop]
  simp only [hwait, hpod, if_false, htail, hget, hnc]
  rfl

theorem tailLoop_goesOn (w : World) (ns : String) (r : PodRound) (rest : List PodRound)
    (h : goesOn w r = true) :
    tailLoop w ns none (r :: rest) =
      ([.waitForReadyPodForSelectorLabels ns selector, .tailLogs ns r.wait.1 containerName,
        .getPod ns r.wait.1 (some r.get.1)] ++ (tailLoop w ns none rest).1,
        (tailLoop w ns none rest).2) := by
  unfold goesOn at h
  simp only [Bool.and_eq_true, decide_eq_true_eq, Bool.not_eq_true', ne_eq,
    decide_not] at h
  obtain ⟨⟨⟨⟨h1, h2⟩, h3⟩, h4⟩, h5⟩ := h
  exact tailLoop_next w ns r rest r.wait.1 r.get.1 (Prod.ext rfl h1) (by simpa using h2) h3
    (Prod.ext rfl h4) h5

/-- What the loop of `tailJobLogs` returns, by the round it returns in. -/
theorem tailLoop_returns (w : World) (ns : String) (rounds : List PodRound) :
    ((tailLoop w ns none rounds).2 = .returned none →
      ∃ pre r post, rounds = pre ++ r :: post ∧ (∀ q ∈ pre, goesOn w q = true) ∧
        r.wait.2 = none ∧ r.wait.1 ≠ "" ∧
        (r.tail ≠ none ∨
          (r.tail = none ∧ r.get.2 = none ∧ w.IsPodCompleted r.get.1 = true ∧
            lastFetchedPod (tailLoop w ns none rounds).1 = some r.get.1))) ∧
    (∀ e, (tailLoop w ns none rounds).2 = .returned (some e) →
      ∃ r ∈ rounds, r.wait.2 = some e ∨
        (r.wait = ("", none) ∧ e = .errorf
          ("No pod found for namespace " ++ ns ++ " with selector map[job-name:jx-boot]")) ∨
        (∃ ge, r.get.2 = some ge ∧
          e = .wrap ge ("failed to get pod " ++ r.wait.1 ++ " in namespace " ++ ns))) := by
  induction rounds with
  | nil => simp [tailLoop]
  | cons r rest ih =>
    by_cases hg : goesOn w r = true
    · rw [tailLoop_goesOn w ns r rest hg]
      obtain ⟨ih1, ih2⟩ := ih
      constructor
      · intro h
        obtain ⟨pre, r', post, e1, e2, e3, e4, e5⟩ := ih1 h
        refine ⟨r :: pre, r', post, by rw [e1]; rfl, ?_, e3, e4, ?_⟩
        · intro q hq
          rcases List.mem_cons.mp hq with rfl | hq
          · exact hg
          · exact e2 q hq
        · rcases e5 with e5 | ⟨a, b, c, d⟩
          · exact Or.inl e5
          · exact Or.inr ⟨a, b, c, lastFetchedPod_append _ _ _ d⟩
      · intro e h
        obtain ⟨r', hr', hh⟩ := ih2 e h
        exact ⟨r', List.mem_cons_of_mem _ hr', hh⟩
    · rcases hw : r.wait with ⟨pod, _ | we⟩
      · by_cases hp : pod = ""
        · subst hp
          have : tailLoop w ns none (r :: rest) =
              ([.waitForReadyPodForSelectorLabels ns selector], .returned (some (.errorf
                ("No pod found for namespace " ++ ns ++
                  " with selector map[job-name:jx-boot]")))) := by
            rw [tailLoop]; simp [hw]
          rw [this]
          refine ⟨fun h => by simp at h, fun e h => ?_⟩
          simp only [Outcome.returned.injEq, Option.some.injEq] at h
          exact ⟨r, List.mem_cons_self _ _, Or.inr (Or.inl ⟨hw, h.symm⟩)⟩
        · rcases ht : r.tail with _ | te
          · rcases hge : r.get with ⟨p, _ | ge⟩
            · by_cases hc : w.IsPodCompleted p = true
              · have : tailLoop w ns none (r :: rest) =
                    ([.waitForReadyPodForSelectorLabels ns selector,
                      .tailLogs ns pod containerName, .getPod ns pod (some p)],
                      .returned none) := by
                  rw [tailLoop]; simp [hw, hp, ht, hge, hc]
                rw [this]
                refine ⟨fun _ => ⟨[], r, rest, rfl, by simp, by simp [hw], by simp [hw, hp],
                  Or.inr ⟨ht, by simp [hge], by simp [hge, hc], ?_⟩⟩, fun e h => by simp at h⟩
                simp [lastFetchedPod, hge]
              · exfalso
                apply hg
                simp [goesOn, hw, hp, ht, hge, hc]
            · have : tailLoop w ns none (r :: rest) =
                  ([.waitForReadyPodForSelectorLabels ns selector,
                    .tailLogs ns pod containerName, .getPod ns pod none],
                    .returned (some (.wrap ge
                      ("failed to get pod " ++ pod ++ " in namespace " ++ ns)))) := by
                rw [tailLoop]; simp [hw, hp, ht, hge]
              rw [this]
              refine ⟨fun h => by simp at h, fun e h => ?_⟩
              simp only [Outcome.returned.injEq, Option.some.injEq] at h
              exact ⟨r, List.mem_cons_self _ _, Or.inr (Or.inr ⟨ge, by simp [hge], by simp [hw, h]⟩)⟩
          · have : tailLoop w ns none (r :: rest) =
                ([.waitForReadyPodForSelectorLabels ns selector,
                  .tailLogs ns pod containerName], .returned none) := by
              rw [tailLoop]; simp [hw, hp, ht]
            rw [this]
            exact ⟨fun _ => ⟨[], r, rest, rfl, by simp, by simp [hw], by simp [hw, hp],
              Or.inl (by simp [ht])⟩, fun e h => by simp at h⟩
      · have : tailLoop w ns none (r :: rest) =
            ([.waitForReadyPodForSelectorLabels ns selector], .returned (some we)) := by
          rw [tailLoop]; simp [hw]
        rw [this]
        refine ⟨fun h => by simp at h, fun e h => ?_⟩
        simp only [Outcome.returned.injEq, Option.some.injEq] at h
        exact ⟨r, List.mem_cons_self _ _, Or.inl (by simp [hw, h])⟩

/-! ## The resolver as a whole -/

/-- The git URL of a successful `findRequirementsAndGitURL`, source by source. -/
theorem findRequirementsAndGitURL_ok (w : World) (o : RunOptions) (t : List Event)
    (r : Option RequirementsConfig) (u : String)
    (hres : findRequirementsAndGitURL w o = (t, r, u, none)) :
    (o.GitURL ≠ "" → u = o.GitURL) ∧
    (o.GitURL = "" → ∀ tc rc c, resolveCluster w = .ok (tc, rc, c) →
      (c ≠ "" → u = c) ∧
      (c = "" → ∃ root conf, w.FindGitConfigDir o.Dir = (root, conf, none) ∧ conf ≠ "" ∧
        w.DiscoverUpstreamGitURL conf = (u, none))) := by
  unfold findRequirementsAndGitURL at hres
  split at hres
  · simp at hres
  · rename_i tr rq g heq
    obtain ⟨h1, h2⟩ := resolveOverride_ok w o tr rq g t r u hres
    refine ⟨fun h => (h1 h).1, fun h tc rc c hc => ?_⟩
    rw [heq] at hc
    simp only [Except.ok.injEq, Prod.mk.injEq] at hc
    obtain ⟨-, -, rfl⟩ := hc
    exact h2 h

/-- A successful `findRequirementsAndGitURL` went through a successful cluster stage. -/
theorem findRequirementsAndGitURL_cluster (w : World) (o : RunOptions) (t : List Event)
    (r : Option RequirementsConfig) (u : String)
    (hres : findRequirementsAndGitURL w o = (t, r, u, none)) :
    ∃ tc rc c, resolveCluster w = .ok (tc, rc, c) := by
  unfold findRequirementsAndGitURL at hres
  split at hres
  · simp at hres
  · rename_i tr rq g heq
    exact ⟨tr, rq, g, heq⟩

/-- With read-only traces around it, `helm delete jx-boot` is the only action. -/
theorem only_helmDelete {t1 t2 : List Event} (h1 : readOnly t1) (h2 : readOnly t2) :
    ∀ e ∈ t1 ++ [Event.runCommand helmDelete] ++ t2,
      Event.isAction e = true → e = .runCommand helmDelete := by
  intro e he ha
  simp only [List.mem_append, List.mem_singleton] at he
  rcases he with (he | he) | he
  · rw [h1 e he] at ha; cases ha
  · exact he
  · rw [h2 e he] at ha; cases ha

/-! ## The claims -/

/-- C1: when `o.GitURL` is not empty and `findRequirementsAndGitURL` returns no error, the
returned git URL is `o.GitURL`, whatever the cluster record holds; and when the cluster
stage yielded no requirements document, `GetRequirementsFromGit` was called at the
override URL and returned no error, the document it fetched is the returned document, and
`LoadRequirementsConfig` is not called. -/
theorem C1_override_is_returned_verbatim (w : World) (o : RunOptions) (t : List Event)
    (r : Option RequirementsConfig) (u : String)
    (hov : o.GitURL ≠ "")
    (hres : findRequirementsAndGitURL w o = (t, r, u, none)) :
    u = o.GitURL ∧
    ∀ tc c, resolveCluster w = .ok (tc, none, c) →
      Event.getRequirementsFromGit o.GitURL ∈ t ∧
      (w.GetRequirementsFromGit o.GitURL).2 = none ∧
      ∀ doc, (w.GetRequirementsFromGit o.GitURL).1 = some doc →
        r = some doc ∧ ∀ dir, Event.loadRequirementsConfig dir ∉ t := by
  unfold findRequirementsAndGitURL at hres
  split at hres
  · simp at hres
  · rename_i tr rq g heq
    obtain ⟨h1, -⟩ := resolveOverride_ok w o tr rq g t r u hres
    obtain ⟨hu, hdoc⟩ := h1 hov
    refine ⟨hu, fun tc c hc => ?_⟩
    rw [heq] at hc
    simp only [Except.ok.injEq, Prod.mk.injEq] at hc
    obtain ⟨rfl, rfl, rfl⟩ := hc
    obtain ⟨hf1, hf2⟩ := resolveOverride_fetch w o _ _ t r u hov hres
    refine ⟨hf1, hf2, fun doc hd => ?_⟩
    obtain ⟨ha, hb⟩ := hdoc rfl doc hd
    refine ⟨ha, fun dir hm => ?_⟩
    rcases resolveCluster_trace w _ _ _ heq _ (hb dir hm) with h | h | h <;> cases h

/-- Witness of C1 on scenario A: no dev-environment record, `--git-url` given, the
requirements found by the git fetch. -/
theorem C1_override_is_returned_verbatim_witness :
    overrideOptions.GitURL ≠ "" ∧
    findRequirementsAndGitURL gitOnlyWorld overrideOptions =
      ([.createJXClient, .getDevEnvironment "jx",
        .getRequirementsFromGit "https://example.com/org/repo.git"],
        some sampleRequirements, "https://example.com/org/repo.git", none) ∧
    resolveCluster gitOnlyWorld = .ok ([.createJXClient, .getDevEnvironment "jx"], none, "") ∧
    ("https://example.com/org/repo.git" = overrideOptions.GitURL ∧
      ∀ tc c, resolveCluster gitOnlyWorld = .ok (tc, none, c) →
        Event.getRequirementsFromGit overrideOptions.GitURL ∈
          [Event.createJXClient, .getDevEnvironment "jx",
            .getRequirementsFromGit "https://example.com/org/repo.git"] ∧
        (gitOnlyWorld.GetRequirementsFromGit overrideOptions.GitURL).2 = none ∧
        ∀ doc, (gitOnlyWorld.GetRequirementsFromGit overrideOptions.GitURL).1 = some doc →
          some sampleRequirements = some doc ∧
          ∀ dir, Event.loadRequirementsConfig dir ∉
            [Event.createJXClient, .getDevEnvironment "jx",
              .getRequirementsFromGit "https://example.com/org/repo.git"]) :=
  ⟨by decide, rfl, rfl,
    C1_override_is_returned_verbatim gitOnlyWorld overrideOptions _ _ _ (by decide) rfl⟩

/-- C2, as stated, fails: the cluster record holds a source URL, the caller passes another
URL as `--git-url`, and the resolver returns the caller's URL, not the cluster's. -/
theorem C2_cluster_url_is_overridden :
    resolveCluster bootedWorld =
      .ok ([.createJXClient, .getDevEnvironment "jx", .getRequirementsConfigFromTeamSettings],
        some sampleRequirements, "https://github.com/myorg/env-dev.git") ∧
    overrideOptions.GitURL = "https://example.com/org/repo.git" ∧
    findRequirementsAndGitURL bootedWorld overrideOptions =
      ([.createJXClient, .getDevEnvironment "jx", .getRequirementsConfigFromTeamSettings],
        some sampleRequirements, "https://example.com/org/repo.git", none) ∧
    (findRequirementsAndGitURL bootedWorld overrideOptions).2.2.1 ≠
      "https://github.com/myorg/env-dev.git" :=
  ⟨rfl, rfl, rfl, by decide⟩

/-- C2, amended: when `findRequirementsAndGitURL` returns no error, the returned git URL is
the override `o.GitURL` if that is not empty; otherwise the source URL of the cluster
record if that is not empty; otherwise the string answered by `DiscoverUpstreamGitURL`
for the git config directory of `o.Dir`. -/
theorem C2_precedence_override_cluster_remote (w : World) (o : RunOptions) (t : List Event)
    (r : Option RequirementsConfig) (u : String)
    (hres : findRequirementsAndGitURL w o = (t, r, u, none)) :
    (o.GitURL ≠ "" → u = o.GitURL) ∧
    (o.GitURL = "" → ∀ tc rc c, resolveCluster w = .ok (tc, rc, c) →
      (c ≠ "" → u = c) ∧
      (c = "" → ∃ root conf, w.FindGitConfigDir o.Dir = (root, conf, none) ∧ conf ≠ "" ∧
        w.DiscoverUpstreamGitURL conf = (u, none))) :=
  findRequirementsAndGitURL_ok w o t r u hres

/-- Witness of amended C2: a booted cluster and no override. -/
theorem C2_precedence_override_cluster_remote_witness :
    findRequirementsAndGitURL bootedWorld plainOptions =
      ([.createJXClient, .getDevEnvironment "jx", .getRequirementsConfigFromTeamSettings],
        some sampleRequirements, "https://github.com/myorg/env-dev.git", none) ∧
    ((plainOptions.GitURL ≠ "" → "https://github.com/myorg/env-dev.git" = plainOptions.GitURL) ∧
    (plainOptions.GitURL = "" → ∀ tc rc c, resolveCluster bootedWorld = .ok (tc, rc, c) →
      (c ≠ "" → "https://github.com/myorg/env-dev.git" = c) ∧
      (c = "" → ∃ root conf, bootedWorld.FindGitConfigDir plainOptions.Dir = (root, conf, none) ∧
        conf ≠ "" ∧
        bootedWorld.DiscoverUpstreamGitURL conf = ("https://github.com/myorg/env-dev.git", none)))) :=
  ⟨rfl, C2_precedence_override_cluster_remote bootedWorld plainOptions _ _ _ rfl⟩

/-- C3, as stated, fails: no dev-environment record, no override, and
`DiscoverUpstreamGitURL` answers the empty string with no error; the resolver returns the
empty git URL with a nil error. -/
theorem C3_empty_url_without_error :
    resolveCluster emptyRemoteWorld = .ok ([.createJXClient, .getDevEnvironment "jx"], none, "") ∧
    plainOptions.GitURL = "" ∧
    emptyRemoteWorld.DiscoverUpstreamGitURL ".git" = ("", none) ∧
    findRequirementsAndGitURL emptyRemoteWorld plainOptions =
      ([.createJXClient, .getDevEnvironment "jx", .loadRequirementsConfig ".",
        .findGitConfigDir ".", .discoverUpstreamGitURL ".git"],
        some sampleRequirements, "", none) :=
  ⟨rfl, rfl, rfl, rfl⟩

/-- C3, amended: when neither the cluster record nor the override yields a non-empty URL,
`findRequirementsAndGitURL` returns a nil error only if `FindGitConfigDir` found a git
config directory and `DiscoverUpstreamGitURL` returned no error, and the returned git URL
is then the string `DiscoverUpstreamGitURL` answered, empty or not; in every other case
the error is not nil. -/
theorem C3_no_url_fails_unless_discovery_answers (w : World) (o : RunOptions)
    (t : List Event) (r : Option RequirementsConfig) (u : String) (e : Option Err)
    (hov : o.GitURL = "")
    (hcl : ∀ tc rc c, resolveCluster w = .ok (tc, rc, c) → c = "")
    (hres : findRequirementsAndGitURL w o = (t, r, u, e)) :
    e = none → ∃ root conf, w.FindGitConfigDir o.Dir = (root, conf, none) ∧ conf ≠ "" ∧
      w.DiscoverUpstreamGitURL conf = (u, none) := by
  intro he
  subst he
  obtain ⟨-, h2⟩ := findRequirementsAndGitURL_ok w o t r u hres
  obtain ⟨tc, rc, c, hc⟩ := findRequirementsAndGitURL_cluster w o t r u hres
  exact (h2 hov tc rc c hc).2 (hcl tc rc c hc)

/-- Witness of amended C3: no cluster record, no override, and a git clone whose upstream
URL is discovered without error. -/
theorem C3_no_url_fails_unless_discovery_answers_witness :
    plainOptions.GitURL = "" ∧
    resolveCluster cloneWorld = .ok ([.createJXClient, .getDevEnvironment "jx"], none, "") ∧
    findRequirementsAndGitURL cloneWorld plainOptions =
      ([.createJXClient, .getDevEnvironment "jx", .loadRequirementsConfig ".",
        .findGitConfigDir ".", .discoverUpstreamGitURL ".git"],
        some sampleRequirements, "https://github.com/myorg/env-dev.git", none) ∧
    ((none : Option Err) = none →
      ∃ root conf, cloneWorld.FindGitConfigDir plainOptions.Dir = (root, conf, none) ∧
        conf ≠ "" ∧
        cloneWorld.DiscoverUpstreamGitURL conf = ("https://github.com/myorg/env-dev.git", none)) :=
  ⟨rfl, rfl, rfl,
    C3_no_url_fails_unless_discovery_answers cloneWorld plainOptions _ _ _ _ rfl
      (fun tc rc c h => by
        have h' : (Except.ok ([Event.createJXClient, .getDevEnvironment "jx"], none, "") :
            Except (List Event × Err) (List Event × Option RequirementsConfig × String)) =
            .ok (tc, rc, c) := h
        simp only [Except.ok.injEq, Prod.mk.injEq] at h'
        exact h'.2.2.symm)
      rfl⟩

/-- C4, as stated, fails: in the first iteration the fetched pod is still running, in the
second the log stream returns an error, and `tailJobLogs` returns nil although the pod it
fetched most recently is not completed. -/
theorem C4_nil_after_stream_error :
    tailJobLogs streamErrorWorld =
      ([.createKubeClient,
        .waitForReadyPodForSelectorLabels "jx" [("job-name", "jx-boot")],
        .tailLogs "jx" "jx-boot-7xk2p" "boot",
        .getPod "jx" "jx-boot-7xk2p" (some runningPod),
        .waitForReadyPodForSelectorLabels "jx" [("job-name", "jx-boot")],
        .tailLogs "jx" "jx-boot-7xk2p" "boot"], .returned none) ∧
    lastFetchedPod (tailJobLogs streamErrorWorld).1 = some runningPod ∧
    streamErrorWorld.IsPodCompleted runningPod = false :=
  ⟨rfl, rfl, rfl⟩

/-- C4, amended: `tailJobLogs` returns nil only in an iteration that found a ready pod
with a name, reached after iterations that all went on, and in which either the log
stream returned an error, or the log stream ended without error and the pod fetched in
that iteration, the most recently fetched one, is completed.  Every other return is a
non-nil error: that of `CreateKubeClient`, that of the pod lookup, the error for an empty
pod name, or the wrapped error of the pod fetch. -/
theorem C4_nil_only_after_stream_error_or_completed_pod (w : World) :
    ((tailJobLogs w).2 = .returned none →
      ∃ pre r post, w.rounds = pre ++ r :: post ∧ (∀ q ∈ pre, goesOn w q = true) ∧
        r.wait.2 = none ∧ r.wait.1 ≠ "" ∧
        (r.tail ≠ none ∨
          (r.tail = none ∧ r.get.2 = none ∧ w.IsPodCompleted r.get.1 = true ∧
            lastFetchedPod (tailJobLogs w).1 = some r.get.1))) ∧
    (∀ e, (tailJobLogs w).2 = .returned (some e) →
      w.CreateKubeClient.2 = some e ∨
      ∃ r ∈ w.rounds, r.wait.2 = some e ∨
        (r.wait = ("", none) ∧ e = .errorf ("No pod found for namespace " ++
          w.CreateKubeClient.1 ++ " with selector map[job-name:jx-boot]")) ∨
        (∃ ge, r.get.2 = some ge ∧ e = .wrap ge
          ("failed to get pod " ++ r.wait.1 ++ " in namespace " ++ w.CreateKubeClient.1))) := by
  unfold tailJobLogs
  rcases hc : w.CreateKubeClient with ⟨ns, _ | ce⟩
  · obtain ⟨h1, h2⟩ := tailLoop_returns w ns w.rounds
    constructor
    · intro h
      obtain ⟨pre, r, post, a, b, c, d, e⟩ := h1 h
      refine ⟨pre, r, post, a, b, c, d, ?_⟩
      rcases e with e | ⟨e1, e2, e3, e4⟩
      · exact Or.inl e
      · refine Or.inr ⟨e1, e2, e3, ?_⟩
        exact lastFetchedPod_append [Event.createKubeClient] _ _ e4
    · intro e h
      exact Or.inr (h2 e h)
  · constructor
    · intro h
      simp at h
    · intro e h
      simp only [Outcome.returned.injEq, Option.some.injEq] at h
      exact Or.inl (by rw [h])

/-- Witness of amended C4: a running round, then a round with a succeeded pod. -/
theorem C4_nil_only_after_stream_error_or_completed_pod_witness :
    (tailJobLogs succeededWorld).2 = .returned none ∧
    ∃ pre r post, succeededWorld.rounds = pre ++ r :: post ∧
      (∀ q ∈ pre, goesOn succeededWorld q = true) ∧
      r.wait.2 = none ∧ r.wait.1 ≠ "" ∧
      (r.tail ≠ none ∨
        (r.tail = none ∧ r.get.2 = none ∧ succeededWorld.IsPodCompleted r.get.1 = true ∧
          lastFetchedPod (tailJobLogs succeededWorld).1 = some r.get.1)) :=
  ⟨rfl, (C4_nil_only_after_stream_error_or_completed_pod succeededWorld).1 rfl⟩

/-- C5, as stated, fails: the boot secret is missing, `verifyBootSecret` fails, and the
trace of `RunBootJob` shows `helm delete jx-boot` run before the verification. -/
theorem C5_helm_delete_runs_before_verification :
    verifyBootSecret cloneWorld sampleRequirements =
      ([.createKubeClient, .getSecret "jx" "jx-boot-secrets"],
        some (.errorf "boot secret jx-boot-secrets not found in namespace jx. are you sure you are running this command in the right namespace and cluster")) ∧
    RunBootJob cloneWorld plainOptions =
      ([.createJXClient, .getDevEnvironment "jx", .loadRequirementsConfig ".",
        .findGitConfigDir ".", .discoverUpstreamGitURL ".git",
        .runCommand ⟨"helm", ["delete", "jx-boot"]⟩,
        .createKubeClient, .getSecret "jx" "jx-boot-secrets"],
        .returned (some (.errorf "boot secret jx-boot-secrets not found in namespace jx. are you sure you are running this command in the right namespace and cluster"))) :=
  ⟨rfl, rfl⟩

/-- C5, amended: whenever `verifyBootSecret` fails in a run of `RunBootJob`, the run
returns that error and its trace is the resolver's, then `helm delete jx-boot`, then the
verifier's; `helm delete jx-boot` is the only action in it, so neither the chart
repository add or update nor the job submission has been executed. -/
theorem C5_only_helm_delete_precedes_failed_verification (w : World) (o : RunOptions)
    (t1 t2 : List Event) (req : RequirementsConfig) (url : String) (err : Err)
    (hres : findRequirementsAndGitURL w o = (t1, some req, url, none))
    (hurl : url ≠ "")
    (hver : verifyBootSecret w req = (t2, some err)) :
    RunBootJob w o = (t1 ++ [.runCommand helmDelete] ++ t2, .returned (some err)) ∧
    ∀ e ∈ (RunBootJob w o).1, Event.isAction e = true → e = .runCommand helmDelete := by
  have hrun := RunBootJob_verify_fails w o t1 t2 req url err hres hurl hver
  refine ⟨hrun, ?_⟩
  rw [hrun]
  have h1 := findRequirementsAndGitURL_readOnly w o
  have h2 := verifyBootSecret_readOnly w req
  rw [hres] at h1
  rw [hver] at h2
  exact only_helmDelete h1 h2

/-- Witness of amended C5: a git clone with requirements and no boot secret. -/
theorem C5_only_helm_delete_precedes_failed_verification_witness :
    findRequirementsAndGitURL cloneWorld plainOptions =
      ([.createJXClient, .getDevEnvironment "jx", .loadRequirementsConfig ".",
        .findGitConfigDir ".", .discoverUpstreamGitURL ".git"],
        some sampleRequirements, "https://github.com/myorg/env-dev.git", none) ∧
    "https://github.com/myorg/env-dev.git" ≠ "" ∧
    verifyBootSecret cloneWorld sampleRequirements =
      ([.createKubeClient, .getSecret "jx" "jx-boot-secrets"],
        some (.errorf "boot secret jx-boot-secrets not found in namespace jx. are you sure you are running this command in the right namespace and cluster")) ∧
    (RunBootJob cloneWorld plainOptions =
      ([.createJXClient, .getDevEnvironment "jx", .loadRequirementsConfig ".",
        .findGitConfigDir ".", .discoverUpstreamGitURL ".git"] ++
        [.runCommand helmDelete] ++ [.createKubeClient, .getSecret "jx" "jx-boot-secrets"],
        .returned (some (.errorf "boot secret jx-boot-secrets not found in namespace jx. are you sure you are running this command in the right namespace and cluster"))) ∧
    ∀ e ∈ (RunBootJob cloneWorld plainOptions).1,
      Event.isAction e = true → e = .runCommand helmDelete) :=
  ⟨rfl, by decide, rfl,
    C5_only_helm_delete_precedes_failed_verification cloneWorld plainOptions _ _
      sampleRequirements _ _ rfl (by decide) rfl⟩

/-- C6: when the boot secret is fetched without error and is not nil, in a namespace
compatible with the one the document requires, and its data is nil, has no `secrets.yaml`
key or holds an empty value under that key, `verifyBootSecret` returns the `fmt.Errorf`
error whose message is "boot secret NAME in namespace NS does not contain key:
secrets.yaml", which contains "does not contain key: secrets.yaml"; and every run of
`RunBootJob` that reaches the verifier with this document returns that error, with
`helm delete jx-boot` as the only action of its trace: the chart repository is not added
and the job is not submitted. -/
theorem C6_keyless_secret_is_rejected (w : World) (req : RequirementsConfig) (ns : String)
    (secret : Secret)
    (hclient : w.CreateKubeClient = (ns, none))
    (hns : req.Cluster.Namespace = "" ∨ req.Cluster.Namespace = ns)
    (hget : w.GetSecret ns w.LocalSecret = (some secret, none))
    (hkey : secret.Data = none ∨ ∃ m, secret.Data = some m ∧
      (m.lookup "secrets.yaml" = none ∨ m.lookup "secrets.yaml" = some [])) :
    ∃ msg pre, msg = pre ++ "does not contain key: secrets.yaml" ∧
      msg = "boot secret " ++ w.LocalSecret ++ " in namespace " ++ ns ++
        " does not contain key: secrets.yaml" ∧
      verifyBootSecret w req =
        ([.createKubeClient, .getSecret ns w.LocalSecret], some (.errorf msg)) ∧
      ∀ o t1 url, findRequirementsAndGitURL w o = (t1, some req, url, none) → url ≠ "" →
        RunBootJob w o =
          (t1 ++ [.runCommand helmDelete] ++ [.createKubeClient, .getSecret ns w.LocalSecret],
            .returned (some (.errorf msg))) ∧
        ∀ e ∈ (RunBootJob w o).1, Event.isAction e = true → e = .runCommand helmDelete := by
  have hver := verifyBootSecret_keyless w req ns secret hclient hns hget hkey
  have hmsg : "boot secret " ++ w.LocalSecret ++ " in namespace " ++ ns ++
      " does not contain key: " ++ "secrets.yaml" =
      "boot secret " ++ w.LocalSecret ++ " in namespace " ++ ns ++
        " does not contain key: secrets.yaml" := by
    rw [String.append_assoc _ " does not contain key: " "secrets.yaml"]
    rfl
  have hpre : "boot secret " ++ w.LocalSecret ++ " in namespace " ++ ns ++
      " does not contain key: secrets.yaml" =
      ("boot secret " ++ w.LocalSecret ++ " in namespace " ++ ns ++ " ") ++
        "does not contain key: secrets.yaml" := by
    rw [String.append_assoc _ " " "does not contain key: secrets.yaml"]
    rfl
  rw [hmsg] at hver
  refine ⟨_, _, hpre, rfl, hver, fun o t1 url hres hurl => ?_⟩
  have hrun := RunBootJob_verify_fails w o t1 _ req url _ hres hurl hver
  refine ⟨hrun, ?_⟩
  rw [hrun]
  have h1 := findRequirementsAndGitURL_readOnly w o
  have h2 := verifyBootSecret_readOnly w req
  rw [hres] at h1
  rw [hver] at h2
  exact only_helmDelete h1 h2

/-- Witness of C6 on scenario B: the secret exists in namespace `jx` without the key
`secrets.yaml`. -/
theorem C6_keyless_secret_is_rejected_witness :
    keylessSecretWorld.CreateKubeClient = ("jx", none) ∧
    (sampleRequirements.Cluster.Namespace = "" ∨ sampleRequirements.Cluster.Namespace = "jx") ∧
    keylessSecretWorld.GetSecret "jx" keylessSecretWorld.LocalSecret =
      (some ⟨some [("other.yaml", [107, 58, 118])]⟩, none) ∧
    verifyBootSecret keylessSecretWorld sampleRequirements =
      ([.createKubeClient, .getSecret "jx" "jx-boot-secrets"], some (.errorf
        "boot secret jx-boot-secrets in namespace jx does not contain key: secrets.yaml")) ∧
    RunBootJob keylessSecretWorld plainOptions =
      ([.createJXClient, .getDevEnvironment "jx", .loadRequirementsConfig ".",
        .findGitConfigDir ".", .discoverUpstreamGitURL ".git",
        .runCommand ⟨"helm", ["delete", "jx-boot"]⟩,
        .createKubeClient, .getSecret "jx" "jx-boot-secrets"], .returned (some (.errorf
        "boot secret jx-boot-secrets in namespace jx does not contain key: secrets.yaml"))) ∧
    ∃ msg pre, msg = pre ++ "does not contain key: secrets.yaml" ∧
      msg = "boot secret " ++ keylessSecretWorld.LocalSecret ++ " in namespace " ++ "jx" ++
        " does not contain key: secrets.yaml" ∧
      verifyBootSecret keylessSecretWorld sampleRequirements =
        ([.createKubeClient, .getSecret "jx" keylessSecretWorld.LocalSecret],
          some (.errorf msg)) ∧
      ∀ o t1 url,
        findRequirementsAndGitURL keylessSecretWorld o = (t1, some sampleRequirements, url, none) →
        url ≠ "" →
        RunBootJob keylessSecretWorld o =
          (t1 ++ [.runCommand helmDelete] ++
            [.createKubeClient, .getSecret "jx" keylessSecretWorld.LocalSecret],
            .returned (some (.errorf msg))) ∧
        ∀ e ∈ (RunBootJob keylessSecretWorld o).1,
          Event.isAction e = true → e = .runCommand helmDelete :=
  ⟨rfl, Or.inr rfl, rfl, rfl, rfl,
    C6_keyless_secret_is_rejected keylessSecretWorld sampleRequirements "jx"
      ⟨some [("other.yaml", [107, 58, 118])]⟩ rfl (Or.inr rfl) rfl
      (Or.inr ⟨_, rfl, Or.inl (by decide)⟩)⟩

/-- C7: when the chart name is empty, begins with `.`, `/` or a backslash, or holds more
than one `/`, `findChartVersion` returns the empty version and no error for every
requirements document, whatever its version-stream URL and ref, and its trace is empty:
`GetVersionNumber` is not called. -/
theorem C7_relative_chart_has_no_version (w : World) (o : RunOptions) (req : RequirementsConfig)
    (h : o.ChartName = "" ∨ o.ChartName.data.head? = some '.' ∨
      o.ChartName.data.head? = some '/' ∨ o.ChartName.data.head? = some '\\' ∨
      o.ChartName.data.count '/' > 1) :
    findChartVersion w o req = ([], "", none) := by
  have hr : isRelativeChart o.ChartName = true := by
    unfold isRelativeChart
    simp only [Bool.or_eq_true, decide_eq_true_eq]
    tauto
  unfold findChartVersion
  rw [if_pos hr]

/-- Witness of C7 on scenario C: the chart name `./charts/boot`. -/
theorem C7_relative_chart_has_no_version_witness :
    localChartOptions.ChartName = "./charts/boot" ∧
    (localChartOptions.ChartName = "" ∨ localChartOptions.ChartName.data.head? = some '.' ∨
      localChartOptions.ChartName.data.head? = some '/' ∨
      localChartOptions.ChartName.data.head? = some '\\' ∨
      localChartOptions.ChartName.data.count '/' > 1) ∧
    findChartVersion emptyWorld localChartOptions sampleRequirements = ([], "", none) :=
  ⟨rfl, Or.inr (Or.inl rfl),
    C7_relative_chart_has_no_version emptyWorld localChartOptions sampleRequirements
      (Or.inr (Or.inl rfl))⟩

/-- C8: in the loop of `tailJobLogs`, an iteration in which a ready pod with a non-empty
name is found, the log stream ends without error and the fetched pod is not completed
does not return: the result of the loop is that of the following iterations, and the
loop is still running when no further answer comes.  The next iteration starts with a
pod lookup by the selector `job-name=jx-boot` in the same namespace and tails the pod
that this lookup names. -/
theorem C8_not_completed_pod_restarts_lookup (w : World) (ns : String) (r : PodRound)
    (pod : String) (p : Pod)
    (hwait : r.wait = (pod, none)) (hpod : pod ≠ "") (htail : r.tail = none)
    (hget : r.get = (p, none)) (hnc : w.IsPodCompleted p = false) :
    (∀ rest, tailLoop w ns none (r :: rest) =
      ([.waitForReadyPodForSelectorLabels ns [("job-name", "jx-boot")],
        .tailLogs ns pod "boot", .getPod ns pod (some p)] ++ (tailLoop w ns none rest).1,
        (tailLoop w ns none rest).2)) ∧
    tailLoop w ns none [r] =
      ([.waitForReadyPodForSelectorLabels ns [("job-name", "jx-boot")],
        .tailLogs ns pod "boot", .getPod ns pod (some p)], .running) ∧
    ∀ r2 rest2, ∃ t, (tailLoop w ns none (r2 :: rest2)).1 =
        .waitForReadyPodForSelectorLabels ns [("job-name", "jx-boot")] :: t ∧
      ∀ pod2, r2.wait = (pod2, none) → pod2 ≠ "" →
        ∃ t2, t = .tailLogs ns pod2 "boot" :: t2 := by
  refine ⟨fun rest => tailLoop_next w ns r rest pod p hwait hpod htail hget hnc, ?_, ?_⟩
  · rw [tailLoop_next w ns r [] pod p hwait hpod htail hget hnc]
    rfl
  · intro r2 rest2
    rw [tailLoop]
    rcases hw : r2.wait with ⟨pod2, _ | we⟩
    · by_cases hp : pod2 = ""
      · refine ⟨[], by simp [hp, selector], fun q hq hne => ?_⟩
        simp only [Prod.mk.injEq, and_true] at hq
        exact absurd (hq ▸ hp) hne
      · simp only [hp, if_false]
        rcases ht : r2.tail with _ | te
        · rcases hge : r2.get with ⟨p2, _ | ge⟩
          · by_cases hc : w.IsPodCompleted p2 = true
            · simp only [hc, if_true]
              refine ⟨_, rfl, fun q hq _ => ?_⟩
              simp only [Prod.mk.injEq, and_true] at hq
              subst hq
              exact ⟨_, rfl⟩
            · simp only [hc, if_false]
              refine ⟨_, rfl, fun q hq _ => ?_⟩
              simp only [Prod.mk.injEq, and_true] at hq
              subst hq
              exact ⟨_, rfl⟩
          · refine ⟨_, rfl, fun q hq _ => ?_⟩
            simp only [Prod.mk.injEq, and_true] at hq
            subst hq
            exact ⟨_, rfl⟩
        · refine ⟨_, rfl, fun q hq _ => ?_⟩
          simp only [Prod.mk.injEq, and_true] at hq
          subst hq
          exact ⟨_, rfl⟩
    · exact ⟨[], rfl, fun q hq => by simp at hq⟩

/-- Witness of C8 on scenario D: the pod is found, its logs stream, the fetched pod is
still running. -/
theorem C8_not_completed_pod_restarts_lookup_witness :
    runningRound.wait = ("jx-boot-7xk2p", none) ∧ "jx-boot-7xk2p" ≠ "" ∧
    runningRound.tail = none ∧ runningRound.get = (runningPod, none) ∧
    cloneWorld.IsPodCompleted runningPod = false ∧
    tailLoop cloneWorld "jx" none [runningRound] =
      ([.waitForReadyPodForSelectorLabels "jx" [("job-name", "jx-boot")],
        .tailLogs "jx" "jx-boot-7xk2p" "boot",
        .getPod "jx" "jx-boot-7xk2p" (some runningPod)], .running) :=
  ⟨rfl, by decide, rfl, rfl, rfl,
    (C8_not_completed_pod_restarts_lookup cloneWorld "jx" runningRound "jx-boot-7xk2p"
      runningPod rfl (by decide) rfl rfl rfl).2.1⟩

/-- C9: when the resolver returns an empty git URL without error, `RunBootJob` returns
the missing-option error for `git-url` and its trace is the resolver's, which holds no
action; and in every run of `RunBootJob`, the installer-job command is built, and then
run, only from a non-empty git URL. -/
theorem C9_empty_git_url_is_rejected (w : World) (o : RunOptions) :
    (∀ t r, findRequirementsAndGitURL w o = (t, r, "", none) →
      RunBootJob w o = (t, .returned (some (.missingOption "git-url"))) ∧ readOnly t) ∧
    (∀ g c v, Event.getBootJobCommand g c v ∈ (RunBootJob w o).1 → g ≠ "") := by
  refine ⟨fun t r hres => ⟨?_, ?_⟩, fun g c v hm => RunBootJob_built_url w o g c v hm⟩
  · unfold RunBootJob
    rw [hres]
    simp
  · have h := findRequirementsAndGitURL_readOnly w o
    rw [hres] at h
    exact h

/-- Witness of C9: no cluster record, no override, and an empty upstream URL. -/
theorem C9_empty_git_url_is_rejected_witness :
    findRequirementsAndGitURL emptyRemoteWorld plainOptions =
      ([.createJXClient, .getDevEnvironment "jx", .loadRequirementsConfig ".",
        .findGitConfigDir ".", .discoverUpstreamGitURL ".git"],
        some sampleRequirements, "", none) ∧
    RunBootJob emptyRemoteWorld plainOptions =
      ([.createJXClient, .getDevEnvironment "jx", .loadRequirementsConfig ".",
        .findGitConfigDir ".", .discoverUpstreamGitURL ".git"],
        .returned (some (.missingOption "git-url"))) ∧
    readOnly [.createJXClient, .getDevEnvironment "jx", .loadRequirementsConfig ".",
        .findGitConfigDir ".", .discoverUpstreamGitURL ".git"] :=
  ⟨rfl, (C9_empty_git_url_is_rejected emptyRemoteWorld plainOptions).1 _ _ rfl⟩

/-- C10, as stated, fails for the owner: with the same `EnvFactory` and the same
directory, two documents that differ only in the environment git owner of their cluster
settings give requests with different owners, so the owner that replaces an empty one is
read from the document and is not a value supplied by the caller. -/
theorem C10_blank_owner_is_read_from_document :
    createDevEnvRequest (fun _ => (some sampleRequirements, "jx-requirements.yml", none))
      devEnvironmentOf sampleFactory "." =
      .built ⟨"https://github.com", "github", "myorg", "environment-mycluster-dev"⟩ ∧
    createDevEnvRequest (fun _ => (some otherOwnerRequirements, "jx-requirements.yml", none))
      devEnvironmentOf sampleFactory "." =
      .built ⟨"https://github.com", "github", "otherorg", "environment-mycluster-dev"⟩ ∧
    sampleRequirements.Cluster.EnvironmentGitOwner = "myorg" ∧
    otherOwnerRequirements.Cluster.EnvironmentGitOwner = "otherorg" :=
  ⟨rfl, rfl, rfl, rfl⟩

/-- C10, amended: for a requirements document with a development environment, the request
built before `ConfirmValues` takes git server and git kind from the cluster settings of
the document, keeps a non-empty owner and a non-empty repository name of the descriptor,
replaces an empty owner by the environment git owner of the cluster settings of the
document, and replaces an empty repository name by `EnvFactory.RepoName`. -/
theorem C10_request_fields
    (load : String → Option RequirementsConfig × String × Option Err)
    (getDev : Option RequirementsConfig → Option EnvironmentConfig)
    (o : EnvFactory) (dir fileName : String) (req : RequirementsConfig)
    (dev : EnvironmentConfig)
    (hload : load dir = (some req, fileName, none))
    (hdev : getDev (some req) = some dev) :
    createDevEnvRequest load getDev o dir = .built
      ⟨req.Cluster.GitServer, req.Cluster.GitKind,
        if dev.Owner = "" then req.Cluster.EnvironmentGitOwner else dev.Owner,
        if dev.Repository = "" then o.RepoName else dev.Repository⟩ := by
  unfold createDevEnvRequest
  rw [hload]
  simp only [hdev]
  by_cases h1 : dev.Owner = "" <;> by_cases h2 : dev.Repository = "" <;> simp [h1, h2]

/-- Witness of amended C10: the sample document, whose development environment names
neither owner nor repository. -/
theorem C10_request_fields_witness :
    (fun _ => (some sampleRequirements, "jx-requirements.yml", none) :
      String → Option RequirementsConfig × String × Option Err) "." =
      (some sampleRequirements, "jx-requirements.yml", none) ∧
    devEnvironmentOf (some sampleRequirements) = some ⟨"dev", "", ""⟩ ∧
    createDevEnvRequest (fun _ => (some sampleRequirements, "jx-requirements.yml", none))
      devEnvironmentOf sampleFactory "." = .built
      ⟨sampleRequirements.Cluster.GitServer, sampleRequirements.Cluster.GitKind,
        if (⟨"dev", "", ""⟩ : EnvironmentConfig).Owner = "" then
          sampleRequirements.Cluster.EnvironmentGitOwner
        else (⟨"dev", "", ""⟩ : EnvironmentConfig).Owner,
        if (⟨"dev", "", ""⟩ : EnvironmentConfig).Repository = "" then sampleFactory.RepoName
        else (⟨"dev", "", ""⟩ : EnvironmentConfig).Repository⟩ :=
  ⟨rfl, rfl, C10_request_fields _ devEnvironmentOf sampleFactory "." "jx-requirements.yml"
    sampleRequirements ⟨"dev", "", ""⟩ rfl rfl⟩

end Helmboot
